import Mathlib

/-!
Verification development for the svunit test-orchestration pipeline
(`bin/svunit/{codegen,discovery,simulators,main}.py`).

The Python sources are shallowly embedded here: pure text transformations
become Lean functions over `List Char` / `String`, file-system contents are
passed explicitly, and side effects (file writes, process launches) are
modelled as explicit effect traces.  Characters are treated as ASCII, which
covers every input the pipeline manipulates (SystemVerilog identifiers,
command-line fragments and path names).
-/

namespace SvUnit

/-! ## Generic embeddings of the Python string primitives -/

/-- Membership of a character in Python's regex class `\s`
(space, tab, newline, vertical tab, form feed, carriage return). -/
def isSpaceChar (c : Char) : Bool :=
  c = ' ' || c = '\t' || c = '\n' || c = '\x0b' || c = '\x0c' || c = '\r'

/-- Membership of a character in Python's regex class `\w` (ASCII reading):
letters, digits and underscore. -/
def isWordChar (c : Char) : Bool :=
  c.isAlphanum || c = '_'

/-- Whether `pat` occurs as a contiguous sublist of `l`
(Python's `pat in s` / a successful `re.search` of a literal pattern). -/
def hasOccur (pat : List Char) : List Char → Bool
  | [] => pat.isEmpty
  | c :: cs => pat.isPrefixOf (c :: cs) || hasOccur pat cs

/-- Worker for `pyReplace`.  The `Nat` state counts characters that still
belong to an already-matched occurrence of the pattern and must be consumed
without being copied; state `0` scans normally.  This makes Python's
left-to-right, non-overlapping `str.replace` scan structurally recursive. -/
def pyReplaceAux (pat rep : List Char) : Nat → List Char → List Char
  | _ + 1, [] => []
  | n + 1, _ :: cs => pyReplaceAux pat rep n cs
  | 0, [] => []
  | 0, c :: cs =>
    if pat ≠ [] ∧ pat.isPrefixOf (c :: cs) then
      rep ++ pyReplaceAux pat rep (pat.length - 1) cs
    else
      c :: pyReplaceAux pat rep 0 cs

/-- Python's `str.replace(pat, rep)` on character lists: every
non-overlapping occurrence of `pat`, found scanning left to right, is
replaced by `rep`.  (All call sites in the sources use a nonempty `pat`;
the `pat ≠ []` guard keeps the empty pattern from matching.) -/
def pyReplace (pat rep l : List Char) : List Char := pyReplaceAux pat rep 0 l

/-- Python's `str.replace` on `String`. -/
def pyReplaceS (pat rep s : String) : String := ⟨pyReplace pat.data rep.data s.data⟩

/-! ## codegen.py — comment stripping and module-name extraction

`SvUnitCodeGen._parse_unit_test_name` reads a file and applies, in order:
`re.sub(r'//.*', '')`, `re.sub(r'/\*.*?\*/', '', flags=DOTALL)`,
`re.sub(r'\bstatic\b', '')`, `re.sub(r'\bautomatic\b', '')`, and finally
`re.search(r'^\s*module\s+(\w+_unit_test)\s*;', flags=MULTILINE)`.
Each pass is embedded below. -/

/-- Worker for `removeLineComments`; the `Bool` state records whether the
scan is currently inside a `//` comment (which ends at, and keeps, the next
newline, matching `re.sub(r'//.*', '')` where `.` does not match `\n`). -/
def removeLineCommentsAux : Bool → List Char → List Char
  | _, [] => []
  | true, c :: cs =>
    if c = '\n' then c :: removeLineCommentsAux false cs
    else removeLineCommentsAux true cs
  | false, c :: cs =>
    if c = '/' ∧ cs.head? = some '/' then removeLineCommentsAux true cs
    else c :: removeLineCommentsAux false cs

/-- `re.sub(r'//.*', '', content)`: delete every `//` comment up to (not
including) the end of its line. -/
def removeLineComments (l : List Char) : List Char := removeLineCommentsAux false l

/-- Worker for `removeBlockComments`.  State `none`: normal scan.  State
`some buf`: inside a candidate `/* ...` comment whose text so far (reversed)
is `buf`; if the input ends before a closing `*/` is found the candidate was
not a match (the regex finds no further match either, since no `*/` remains)
and the buffered text is emitted verbatim. -/
def removeBlockAux : Option (List Char) → List Char → List Char
  | none, [] => []
  | some buf, [] => buf.reverse
  | none, '/' :: '*' :: rest => removeBlockAux (some ['*', '/']) rest
  | none, c :: cs => c :: removeBlockAux none cs
  | some _, '*' :: '/' :: rest => removeBlockAux none rest
  | some buf, c :: cs => removeBlockAux (some (c :: buf)) cs

/-- `re.sub(r'/\*.*?\*/', '', content, flags=re.DOTALL)`: delete every
block comment, each span running from a `/*` to the nearest following `*/`
(the pattern is lazy), with unterminated `/*` left in place. -/
def removeBlockComments (l : List Char) : List Char := removeBlockAux none l

/-- Worker for `removeWord`.  The `Nat` state counts characters of an
already-matched keyword still to be consumed; the `Bool` state records
whether the previous character was a word character (for `\b` boundaries;
at a match the keyword's own last character, a word character, becomes the
previous character). -/
def removeWordAux (w : List Char) : Nat → Bool → List Char → List Char
  | _ + 1, _, [] => []
  | n + 1, _, _ :: cs => removeWordAux w n true cs
  | 0, _, [] => []
  | 0, prevWord, c :: cs =>
    if w ≠ [] ∧ prevWord = false ∧ w.isPrefixOf (c :: cs) ∧
        (((c :: cs).drop w.length).head?.all fun d => !isWordChar d) then
      removeWordAux w (w.length - 1) true cs
    else
      c :: removeWordAux w 0 (isWordChar c) cs

/-- `re.sub(r'\b<w>\b', '', content)` for a keyword `w` made of word
characters: delete every occurrence of `w` delimited by word boundaries. -/
def removeWord (w : List Char) (l : List Char) : List Char :=
  removeWordAux w 0 false l

/-- One attempt of `\s*module\s+(\w+_unit_test)\s*;` at the current
position: skip whitespace, expect the literal `module`, at least one
whitespace character, then a maximal word run that ends in `_unit_test`
(with a nonempty `\w+` part), optional whitespace and `;`.  Returns the
captured identifier. -/
def tryMatchModule (l : List Char) : Option (List Char) :=
  let r1 := l.dropWhile isSpaceChar
  if "module".data.isPrefixOf r1 then
    let r2 := r1.drop 6
    let ws2 := r2.takeWhile isSpaceChar
    let r3 := r2.dropWhile isSpaceChar
    if ws2.isEmpty then none
    else
      let w := r3.takeWhile isWordChar
      let r4 := r3.dropWhile isWordChar
      if "_unit_test".data.isSuffixOf w ∧ "_unit_test".length < w.length then
        if (r4.dropWhile isSpaceChar).head? = some ';' then some w else none
      else none
  else none

/-- Worker for `searchModule`: try the anchored pattern at every line start
(position 0 and each position following a newline), left to right, as
`re.search` with `re.MULTILINE` does for a `^`-anchored pattern. -/
def searchAux : Bool → List Char → Option (List Char)
  | _, [] => none
  | atStart, c :: cs =>
    if atStart then
      match tryMatchModule (c :: cs) with
      | some w => some w
      | none => searchAux (c = '\n') cs
    else searchAux (c = '\n') cs

/-- `re.search(r'^\s*module\s+(\w+_unit_test)\s*;', content, re.MULTILINE)`,
returning the first capture group of the leftmost match. -/
def searchModule (l : List Char) : Option (List Char) := searchAux true l

/-- `SvUnitCodeGen._parse_unit_test_name`, applied to the file's content:
strip `//` comments, strip lazy `/* */` comments, strip the `static` and
`automatic` keywords at word boundaries, then search for the module
declaration and return its identifier (or `none`). -/
def parseUnitTestName (content : String) : Option String :=
  let c1 := removeLineComments content.data
  let c2 := removeBlockComments c1
  let c3 := removeWord "static".data c2
  let c4 := removeWord "automatic".data c3
  (searchModule c4).map fun w => ⟨w⟩

/-! ## codegen.py — generated suite and runner text

`create_testsuite` / `create_testrunner` write their output with a fixed
sequence of `f.write` calls; the embeddings below mirror that sequence
(each loop becomes a `foldl` that appends to the text written so far).
`create_testsuite` takes the stem of the output file and the module names
extracted from the unit-test files (in group order); `create_testrunner`
takes the file names of the generated suite artifacts. -/

/-- Right-fold concatenation of a list of strings (used to state the
decomposition of the generated text into per-identifier fragments). -/
def concatStrs (l : List String) : String := l.foldr (· ++ ·) ""

/-- `SvUnitCodeGen.create_testsuite`, as the text it writes:
`outStem` is `output_file.stem`, `moduleNames` the identifiers extracted
from the unit-test files, in order. -/
def createTestsuiteText (outStem : String) (moduleNames : List String) : String :=
  let class_name := pyReplaceS "." "" outStem
  let instance_name := pyReplaceS "_testsuite" "_ts" class_name
  let instances := moduleNames.map fun m => pyReplaceS "_unit_test" "_ut" m
  let s := "module " ++ class_name ++ ";\n"
    ++ "  import svunit_pkg::svunit_testsuite;\n\n"
    ++ "  string name = \"" ++ instance_name ++ "\";\n"
    ++ "  svunit_testsuite svunit_ts;\n"
    ++ "  \n"
    ++ "  \n"
    ++ "  //===================================\n"
    ++ "  // These are the unit tests that we\n"
    ++ "  // want included in this testsuite\n"
    ++ "  //===================================\n"
  let s := (moduleNames.zip instances).foldl
    (fun acc p => acc ++ ("  " ++ p.1 ++ " " ++ p.2 ++ "();\n")) s
  let s := s ++ "\n\n"
    ++ "  //===================================\n"
    ++ "  // Build\n"
    ++ "  //===================================\n"
    ++ "  function void build();\n"
  let s := instances.foldl
    (fun acc i => acc ++ ("    " ++ i ++ ".build();\n" ++ "    " ++ i ++ ".__register_tests();\n")) s
  let s := s ++ "    svunit_ts = new(name);\n"
  let s := instances.foldl
    (fun acc i => acc ++ ("    svunit_ts.add_testcase(" ++ i ++ ".svunit_ut);\n")) s
  let s := s ++ "  endfunction\n\n"
    ++ "\n"
    ++ "  //===================================\n"
    ++ "  // Run\n"
    ++ "  //===================================\n"
    ++ "  task run();\n"
    ++ "    svunit_ts.run();\n"
  let s := instances.foldl (fun acc i => acc ++ ("    " ++ i ++ ".run();\n")) s
  s ++ "    svunit_ts.report();\n"
    ++ "  endtask\n\n"
    ++ "endmodule\n"

/-- `SvUnitCodeGen.create_testrunner`, as the text it writes:
`suiteFileNames` holds `ts.name` for each generated suite artifact path. -/
def createTestrunnerText (suiteFileNames : List String) : String :=
  let suite_classes := suiteFileNames.map fun n => pyReplaceS "." "" (pyReplaceS ".sv" "" n)
  let suite_instances := suite_classes.map fun n => pyReplaceS "_testsuite" "_ts" n
  let s := "\n"
    ++ "module testrunner();\n"
    ++ "  import svunit_pkg::svunit_testrunner;\n"
    ++ "`ifdef RUN_SVUNIT_WITH_UVM\n"
    ++ "  import uvm_pkg::*;\n"
    ++ "  import svunit_uvm_mock_pkg::svunit_uvm_test_inst;\n"
    ++ "  import svunit_uvm_mock_pkg::uvm_report_mock;\n"
    ++ "`endif\n\n"
    ++ "  string name = \"testrunner\";\n"
    ++ "  svunit_testrunner svunit_tr;\n\n\n"
    ++ "  //==================================\n"
    ++ "  // These are the test suites that we\n"
    ++ "  // want included in this testrunner\n"
    ++ "  //==================================\n"
  let s := (suite_classes.zip suite_instances).foldl
    (fun acc p => acc ++ ("  " ++ p.1 ++ " " ++ p.2 ++ "();\n")) s
  let s := s ++ "\n\n"
    ++ "  //===================================\n"
    ++ "  // Main\n"
    ++ "  //===================================\n"
    ++ "  initial\n"
    ++ "  begin\n"
    ++ "\n"
    ++ "    `ifdef RUN_SVUNIT_WITH_UVM_REPORT_MOCK\n"
    ++ "      uvm_report_cb::add(null, uvm_report_mock::reports);\n"
    ++ "    `endif\n"
    ++ "\n"
    ++ "    build();\n"
    ++ "\n"
    ++ "    `ifdef RUN_SVUNIT_WITH_UVM\n"
    ++ "      svunit_uvm_test_inst(\"svunit_uvm_test\");\n"
    ++ "    `endif\n"
    ++ "\n"
    ++ "    run();\n"
    ++ "    $finish();\n"
    ++ "  end\n"
  let s := s ++ "\n\n"
    ++ "  //===================================\n"
    ++ "  // Build\n"
    ++ "  //===================================\n"
    ++ "  function void build();\n"
    ++ "    svunit_tr = new(name);\n"
  let s := suite_instances.foldl
    (fun acc i => acc ++ ("    " ++ i ++ ".build();\n" ++ "    svunit_tr.add_testsuite(" ++ i ++ ".svunit_ts);\n")) s
  let s := s ++ "  endfunction\n\n\n"
    ++ "  //===================================\n"
    ++ "  // Run\n"
    ++ "  //===================================\n"
    ++ "  task run();\n"
  let s := suite_instances.foldl (fun acc i => acc ++ ("    " ++ i ++ ".run();\n")) s
  s ++ "    svunit_tr.report();\n"
    ++ "  endtask\n"
    ++ "\n\n"
    ++ "endmodule\n"

/-! ## Per-identifier fragments of the generated text

Each function below depends only on the single identifier it is given, so
the decomposition theorem for the generators shows that permuting the input
list permutes the emitted per-identifier declarations and statements without
changing the text emitted for any individual identifier. -/

/-- Instance name derived from a module identifier in `create_testsuite`
(`module_name.replace('_unit_test', '_ut')`). -/
def suiteInstOf (n : String) : String := pyReplaceS "_unit_test" "_ut" n

/-- Per-identifier instance declaration emitted by `create_testsuite`. -/
def suiteDeclFrag (n : String) : String := "  " ++ n ++ " " ++ suiteInstOf n ++ "();\n"

/-- Per-identifier build statements emitted by `create_testsuite`. -/
def suiteBuildFrag (n : String) : String :=
  "    " ++ suiteInstOf n ++ ".build();\n" ++ "    " ++ suiteInstOf n ++ ".__register_tests();\n"

/-- Per-identifier test-case registration emitted by `create_testsuite`. -/
def suiteAddFrag (n : String) : String :=
  "    svunit_ts.add_testcase(" ++ suiteInstOf n ++ ".svunit_ut);\n"

/-- Per-identifier run statement emitted by `create_testsuite`. -/
def suiteRunFrag (n : String) : String := "    " ++ suiteInstOf n ++ ".run();\n"

/-- Fixed text of `create_testsuite` before the instance declarations. -/
def suitePre (outStem : String) : String :=
  "module " ++ pyReplaceS "." "" outStem ++ ";\n"
  ++ "  import svunit_pkg::svunit_testsuite;\n\n"
  ++ "  string name = \"" ++ pyReplaceS "_testsuite" "_ts" (pyReplaceS "." "" outStem) ++ "\";\n"
  ++ "  svunit_testsuite svunit_ts;\n"
  ++ "  \n"
  ++ "  \n"
  ++ "  //===================================\n"
  ++ "  // These are the unit tests that we\n"
  ++ "  // want included in this testsuite\n"
  ++ "  //===================================\n"

/-- Fixed text of `create_testsuite` between declarations and build calls. -/
def suiteBuildHead : String :=
  "\n\n"
  ++ "  //===================================\n"
  ++ "  // Build\n"
  ++ "  //===================================\n"
  ++ "  function void build();\n"

/-- Fixed text of `create_testsuite` between build calls and registrations. -/
def suiteBuildMid : String := "    svunit_ts = new(name);\n"

/-- Fixed text of `create_testsuite` between registrations and run calls. -/
def suiteRunHead : String :=
  "  endfunction\n\n"
  ++ "\n"
  ++ "  //===================================\n"
  ++ "  // Run\n"
  ++ "  //===================================\n"
  ++ "  task run();\n"
  ++ "    svunit_ts.run();\n"

/-- Fixed text of `create_testsuite` after the run calls. -/
def suiteTail : String :=
  "    svunit_ts.report();\n"
  ++ "  endtask\n\n"
  ++ "endmodule\n"

/-- Suite class name derived from a suite artifact's file name in
`create_testrunner` (`name.replace('.sv', '').replace('.', '')`). -/
def runnerClsOf (n : String) : String := pyReplaceS "." "" (pyReplaceS ".sv" "" n)

/-- Suite instance name derived from a suite artifact's file name in
`create_testrunner` (class name with `_testsuite` replaced by `_ts`). -/
def runnerInstOf (n : String) : String := pyReplaceS "_testsuite" "_ts" (runnerClsOf n)

/-- Per-suite instance declaration emitted by `create_testrunner`. -/
def runnerDeclFrag (n : String) : String :=
  "  " ++ runnerClsOf n ++ " " ++ runnerInstOf n ++ "();\n"

/-- Per-suite build statements emitted by `create_testrunner`. -/
def runnerBuildFrag (n : String) : String :=
  "    " ++ runnerInstOf n ++ ".build();\n"
  ++ "    svunit_tr.add_testsuite(" ++ runnerInstOf n ++ ".svunit_ts);\n"

/-- Per-suite run statement emitted by `create_testrunner`. -/
def runnerRunFrag (n : String) : String := "    " ++ runnerInstOf n ++ ".run();\n"

/-- Fixed text of `create_testrunner` before the instance declarations. -/
def runnerPre : String :=
  "\n"
  ++ "module testrunner();\n"
  ++ "  import svunit_pkg::svunit_testrunner;\n"
  ++ "`ifdef RUN_SVUNIT_WITH_UVM\n"
  ++ "  import uvm_pkg::*;\n"
  ++ "  import svunit_uvm_mock_pkg::svunit_uvm_test_inst;\n"
  ++ "  import svunit_uvm_mock_pkg::uvm_report_mock;\n"
  ++ "`endif\n\n"
  ++ "  string name = \"testrunner\";\n"
  ++ "  svunit_testrunner svunit_tr;\n\n\n"
  ++ "  //==================================\n"
  ++ "  // These are the test suites that we\n"
  ++ "  // want included in this testrunner\n"
  ++ "  //==================================\n"

/-- Fixed text of `create_testrunner` between declarations and build calls
(the `initial` block and the head of `build`). -/
def runnerBuildHead : String :=
  "\n\n"
  ++ "  //===================================\n"
  ++ "  // Main\n"
  ++ "  //===================================\n"
  ++ "  initial\n"
  ++ "  begin\n"
  ++ "\n"
  ++ "    `ifdef RUN_SVUNIT_WITH_UVM_REPORT_MOCK\n"
  ++ "      uvm_report_cb::add(null, uvm_report_mock::reports);\n"
  ++ "    `endif\n"
  ++ "\n"
  ++ "    build();\n"
  ++ "\n"
  ++ "    `ifdef RUN_SVUNIT_WITH_UVM\n"
  ++ "      svunit_uvm_test_inst(\"svunit_uvm_test\");\n"
  ++ "    `endif\n"
  ++ "\n"
  ++ "    run();\n"
  ++ "    $finish();\n"
  ++ "  end\n"
  ++ "\n\n"
  ++ "  //===================================\n"
  ++ "  // Build\n"
  ++ "  //===================================\n"
  ++ "  function void build();\n"
  ++ "    svunit_tr = new(name);\n"

/-- Fixed text of `create_testrunner` between build and run calls. -/
def runnerRunHead : String :=
  "  endfunction\n\n\n"
  ++ "  //===================================\n"
  ++ "  // Run\n"
  ++ "  //===================================\n"
  ++ "  task run();\n"

/-- Fixed text of `create_testrunner` after the run calls. -/
def runnerTail : String :=
  "    svunit_tr.report();\n"
  ++ "  endtask\n"
  ++ "\n\n"
  ++ "endmodule\n"

/-! ## Spec-modelled variants (for refinement comparisons only) -/

/-- Modelled from the spec: the remainder of the input after the furthest
(last) occurrence of `*/`, for the greedy reading of block-comment
removal.  Returns `none` when no `*/` occurs. -/
def afterLastClose : List Char → Option (List Char)
  | [] => none
  | '*' :: '/' :: rest => some ((afterLastClose rest).getD rest)
  | _ :: cs => afterLastClose cs

/-- Modelled from the spec: greedy block-comment removal, in which the span
removed for a `/*` extends to the furthest following `*/` in the content
(the claim's reading of `re.sub(r'/\*.*\*/', ...)` with a greedy `.*`);
after that removal no `*/` remains, so no further span is removed. -/
def removeBlockCommentsGreedySpec (l : List Char) : List Char :=
  match splitAtOpen l with
  | none => l
  | some (pre, rest) =>
    match afterLastClose rest with
    | none => l
    | some r => pre ++ r
where
  /-- Split at the first `/*`: contents before it and after it. -/
  splitAtOpen : List Char → Option (List Char × List Char)
    | [] => none
    | '/' :: '*' :: rest => some ([], rest)
    | c :: cs => (splitAtOpen cs).map fun p => (c :: p.1, p.2)

/-- Modelled from the spec: `_parse_unit_test_name` with the greedy reading
of block-comment removal that the claim describes. -/
def parseUnitTestNameGreedySpec (content : String) : Option String :=
  let c1 := removeLineComments content.data
  let c2 := removeBlockCommentsGreedySpec c1
  let c3 := removeWord "static".data c2
  let c4 := removeWord "automatic".data c3
  (searchModule c4).map fun w => ⟨w⟩

/-- Modelled from the spec: replace only a trailing occurrence of `pat` by
`rep` (the claim's reading of the instance-name derivation), leaving any
non-trailing occurrence intact. -/
def replaceTrailingSpec (pat rep s : String) : String :=
  if pat.data.isSuffixOf s.data then
    ⟨s.data.take (s.data.length - pat.data.length) ++ rep.data⟩
  else s

/-! ## discovery.py — test discovery and grouping

A file-system entry is modelled as its parent directory plus its file
name; a directory tree's recursive listing (`Path.rglob` traversal order)
is a list of such entries. -/

/-- A file path, as discovery sees it: the immediate parent directory
(`Path.parent`, as a rendered string) and the file name (`Path.name`). -/
structure SvPath where
  parent : String
  name : String
deriving DecidableEq, Repr

/-- Whether a file name matches the discovery glob `*_unit_test.sv`
(`fnmatch`: anything, including nothing, followed by the fixed suffix). -/
def matchesUnitTestGlob (n : String) : Bool := "_unit_test.sv".data.isSuffixOf n.data

/-- `TestDiscovery._find_tests_in_directory` with no explicit test names:
every file of the directory's recursive listing (in traversal order) whose
name matches `*_unit_test.sv` is appended to the found list. -/
def findTestsInDirectory (listing : List SvPath) : List SvPath :=
  listing.filter fun p => matchesUnitTestGlob p.name

/-- `TestDiscovery.discover` with no explicit test names: fold over the
searched root directories (each given by its recursive listing),
accumulating the matching files of each root in order. -/
def discoverNoTests (roots : List (List SvPath)) : List SvPath :=
  roots.foldl (fun acc d => acc ++ findTestsInDirectory d) []

/-- One step of `TestDiscovery.get_test_suites`: insert a found test into
the suites dictionary (an insertion-ordered list of key/value pairs, as a
Python `dict`), appending to the entry of its parent directory or creating
that entry at the end. -/
def addToSuites (suites : List (String × List SvPath)) (t : SvPath) :
    List (String × List SvPath) :=
  if suites.any fun kv => kv.1 = t.parent then
    suites.map fun kv => if kv.1 = t.parent then (kv.1, kv.2 ++ [t]) else kv
  else
    suites ++ [(t.parent, [t])]

/-- `TestDiscovery.get_test_suites`: group the found tests by parent
directory, keys in first-discovery order, values in discovery order. -/
def getTestSuites (found : List SvPath) : List (String × List SvPath) :=
  found.foldl addToSuites []

/-- The parent directories of the found tests, in first-occurrence order
(the key order of the suites dictionary). -/
def firstKeys (found : List SvPath) : List String :=
  found.foldl (fun ks t => if t.parent ∈ ks then ks else ks ++ [t.parent]) []

/-! ## simulators.py — backend adapters

`Simulator.set_options` stores a canonical run configuration; each
backend's `run` builds one shell command string and hands it to
`_run_command`.  The command construction is embedded as pure functions of
the configuration; process execution is an oracle `String → Bool`. -/

/-- The canonical run configuration stored by `Simulator.set_options`. -/
structure RunConfig where
  defines : List String := []
  filelists : List String := []
  sim_args : List String := []
  compile_args : List String := []
  elabArgs : List String := []
  uvm : Bool := false
  vhdl_file : Option String := none
  logfile : String := "run.log"
  outdir : String := "."
  filter : Option String := none
  list_tests : Bool := false

/-- Python truthiness of an optional string (`if self.vhdl_file:` and
`if self.filter:` are false for `None` and for the empty string). -/
def optTruthy : Option String → Bool
  | none => false
  | some s => !(s = "")

/-- Whether an argument is one of the explicit mode-selecting flags that
`ModelSim.run` looks for (`-c`, `-gui`, `-i`). -/
def isModeFlag (a : String) : Bool := a = "-c" || a = "-gui" || a = "-i"

/-- The simulate-phase arguments `ModelSim.run` passes to `vsim`: the
caller's `sim_args`, with `-c` appended when no mode-selecting flag is
present (`if not has_mode_flag: self.sim_args.append("-c")`). -/
def modelSimEffectiveSimArgs (args : List String) : List String :=
  if args.any isModeFlag then args else args ++ ["-c"]

/-- The command string `ModelSim.run` hands to `_run_command`. -/
def modelSimRunCmd (cfg : RunConfig) : String :=
  let cmd := "vlib work && "
  let cmd := if optTruthy cfg.vhdl_file then
      cmd ++ "vcom -work work -f " ++ cfg.vhdl_file.getD "" ++ " && "
    else cmd
  let cmd := cmd ++ "vlog -l " ++ cfg.logfile ++ " "
  let defines := if cfg.uvm then cfg.defines ++ ["RUN_SVUNIT_WITH_UVM"] else cfg.defines
  let cmd := cfg.filelists.foldl (fun a fl => a ++ " -f " ++ fl) cmd
  let cmd := cmd ++ " -f .svunit.f"
  let cmd := if defines.isEmpty then cmd
    else cmd ++ " +define+" ++ String.intercalate "+define+" defines
  let cmd := if cfg.compile_args.isEmpty then cmd
    else cmd ++ " " ++ String.intercalate " " cfg.compile_args
  let vopt := if cfg.elabArgs.isEmpty then ""
    else "-voptargs=\"" ++ String.intercalate " " cfg.elabArgs ++ "\""
  let cmd := cmd ++ " && vsim " ++ vopt ++ " "
    ++ String.intercalate " " (modelSimEffectiveSimArgs cfg.sim_args)
    ++ " -lib work -do \"run -all; quit\" -l " ++ cfg.logfile ++ " testrunner"
  let cmd := if optTruthy cfg.filter then
      cmd ++ " +SVUNIT_FILTER=" ++ cfg.filter.getD ""
    else cmd
  if cfg.list_tests then cmd ++ " +SVUNIT_LIST_TESTS" else cmd

/-- The command string `Vcs.run` hands to `_run_command`. -/
def vcsRunCmd (cfg : RunConfig) : String :=
  let cmd := "vcs -R -sverilog -l " ++ cfg.logfile ++ " "
  let cmd := if optTruthy cfg.vhdl_file then cmd ++ "-f " ++ cfg.vhdl_file.getD "" ++ " " else cmd
  let cmd := if cfg.uvm then cmd ++ " -ntb_opts uvm" else cmd
  let defines := if cfg.uvm then cfg.defines ++ ["RUN_SVUNIT_WITH_UVM"] else cfg.defines
  let cmd := cfg.filelists.foldl (fun a fl => a ++ " -f " ++ fl) cmd
  let cmd := cmd ++ " -f .svunit.f"
  let cmd := if defines.isEmpty then cmd
    else cmd ++ " +define+" ++ String.intercalate "+define+" defines
  let cmd := if cfg.compile_args.isEmpty then cmd
    else cmd ++ " " ++ String.intercalate " " cfg.compile_args
  let cmd := if cfg.elabArgs.isEmpty then cmd
    else cmd ++ " " ++ String.intercalate " " cfg.elabArgs
  let cmd := if cfg.sim_args.isEmpty then cmd
    else cmd ++ " " ++ String.intercalate " " cfg.sim_args
  let cmd := cmd ++ " -top testrunner"
  let cmd := if optTruthy cfg.filter then
      cmd ++ " +SVUNIT_FILTER=" ++ cfg.filter.getD ""
    else cmd
  if cfg.list_tests then cmd ++ " +SVUNIT_LIST_TESTS" else cmd

/-- The command string `Verilator.run` hands to `_run_command` once its
configuration checks have passed. -/
def verilatorCmd (cfg : RunConfig) : String :=
  let cmd := "verilator --binary --top-module testrunner"
  let cmd := if cfg.compile_args.isEmpty then cmd
    else cmd ++ " " ++ String.intercalate " " cfg.compile_args
  let cmd := if cfg.elabArgs.isEmpty then cmd
    else cmd ++ " " ++ String.intercalate " " cfg.elabArgs
  let cmd := cfg.filelists.foldl (fun a fl => a ++ " -f " ++ fl) cmd
  let cmd := cmd ++ " -f .svunit.f"
  let cmd := if cfg.defines.isEmpty then cmd
    else cmd ++ " +define+" ++ String.intercalate "+define+" cfg.defines
  let simArgsStr := if cfg.sim_args.isEmpty then "" else String.intercalate " " cfg.sim_args
  let simArgsStr := if optTruthy cfg.filter then
      simArgsStr ++ " +SVUNIT_FILTER=" ++ cfg.filter.getD ""
    else simArgsStr
  let simArgsStr := if cfg.list_tests then simArgsStr ++ " +SVUNIT_LIST_TESTS" else simArgsStr
  cmd ++ " && obj_dir/Vtestrunner " ++ simArgsStr ++ " 2>&1 | tee " ++ cfg.logfile

/-- `Verilator.run`: the UVM and VHDL configuration checks come first and
return `False` without building a command; otherwise the command is built
and executed (`exec` is the external-process oracle).  The second component
lists the commands launched. -/
def verilatorRun (cfg : RunConfig) (exec : String → Bool) : Bool × List String :=
  if cfg.uvm then (false, [])
  else if optTruthy cfg.vhdl_file then (false, [])
  else (exec (verilatorCmd cfg), [verilatorCmd cfg])

/-- The in-place rewrite `Xsim.run` applies to the manifest `.svunit.f`
before compiling: `content.replace("+incdir+", "--include ")`. -/
def xsimRewriteManifest (content : String) : String :=
  pyReplaceS "+incdir+" "--include " content

/-! ## main.py — manifest construction and run-mode control flow -/

/-- Sanitization of a directory path into a suite file-name component
(`dir_id`): `str(...).replace('/', '_').replace('.', '_').replace('-', '_')`. -/
def sanitizeDirId (s : String) : String :=
  pyReplaceS "-" "_" (pyReplaceS "." "_" (pyReplaceS "/" "_" s))

/-- The `dir_id` computed for a suite directory: the directory rendered
relative to the working directory when it lies beneath it (with `.`
for the working directory itself), otherwise the full path with a leading
underscore dropped, sanitized either way. -/
def dirId (cwd dir : String) : String :=
  if dir = cwd then sanitizeDirId "."
  else if (cwd ++ "/").data.isPrefixOf dir.data then
    sanitizeDirId ⟨dir.data.drop (cwd.data.length + 1)⟩
  else
    let d := sanitizeDirId dir
    if d.data.head? = some '_' then ⟨d.data.drop 1⟩ else d

/-- The generated suite artifact path for a suite directory
(`outdir / f".{dir_id}_testsuite.sv"`). -/
def tsPath (outdir cwd dir : String) : String :=
  outdir ++ "/." ++ dirId cwd dir ++ "_testsuite.sv"

/-- The generated runner artifact path (`outdir / ".testrunner.sv"`). -/
def trPath (outdir : String) : String := outdir ++ "/.testrunner.sv"

/-- The manifest (`.svunit.f`) lines, in the order `main` writes them:
the working directory as an include directive; the bundled support-library
include directories and package sources, with the UVM mock and the
experimental module each gated by its flag; per discovered suite its member
test files, its include directory and its generated suite artifact; and the
generated runner artifact last.  `suites` pairs each suite directory with
the rendered paths of its member test files, in discovery order. -/
def manifestLines (cwd inst outdir : String) (uvm exp : Bool)
    (suites : List (String × List String)) : List String :=
  let ls := ["+incdir+" ++ cwd,
             "+incdir+" ++ inst ++ "/svunit_base/junit-xml",
             inst ++ "/svunit_base/junit-xml/junit_xml.sv",
             "+incdir+" ++ inst ++ "/svunit_base",
             inst ++ "/svunit_base/svunit_pkg.sv"]
  let ls := if uvm then
      ls ++ ["+incdir+" ++ inst ++ "/svunit_base/uvm-mock",
             inst ++ "/svunit_base/uvm-mock/svunit_uvm_mock_pkg.sv"]
    else ls
  let ls := if exp then
      ls ++ ["+incdir+" ++ inst ++ "/src/experimental/sv",
             inst ++ "/src/experimental/sv/svunit.sv"]
    else ls
  let ls := suites.foldl
    (fun acc s => acc ++ s.2 ++ ["+incdir+" ++ s.1, tsPath outdir cwd s.1]) ls
  ls ++ [trPath outdir]

/-- An observable side effect of the run-mode entry point: writing the
manifest file, generating a suite or runner artifact, or invoking the
selected backend. -/
inductive Effect where
  | writeManifest (lines : List String)
  | genSuite (path : String)
  | genRunner (path : String)
  | runSim (name : String)
deriving DecidableEq, Repr

/-- The run-mode branch of `main`, as exit status plus effect trace:
discovery runs first and `if not found_tests: return 0` short-circuits
everything else; otherwise the manifest is written (completed when its
`with open(...)` block closes, after suite and runner generation), the
artifacts are generated, and the backend — when one resolves — is invoked,
its failure turning into exit status 1.  `simResolved` models successful
backend selection/detection and `simOk` the external process result. -/
def runMain (roots : List (List SvPath)) (cwd inst outdir : String)
    (uvm exp : Bool) (simResolved : Bool) (simName : String) (simOk : Bool) :
    Int × List Effect :=
  let found := discoverNoTests roots
  if found.isEmpty then (0, [])
  else
    let suites := getTestSuites found
    let suiteStrs := suites.map fun kv => (kv.1, kv.2.map fun t => t.parent ++ "/" ++ t.name)
    let effs := (suites.map fun kv => Effect.genSuite (tsPath outdir cwd kv.1))
      ++ [Effect.genRunner (trPath outdir),
          Effect.writeManifest (manifestLines cwd inst outdir uvm exp suiteStrs)]
    if !simResolved then (1, effs)
    else if simOk then (0, effs ++ [Effect.runSim simName])
    else (1, effs ++ [Effect.runSim simName])

/-! ## Lemmas on `pyReplace` (for the Xsim manifest rewrite) -/

/-- A positive skip state only drops that many characters of the input. -/
theorem pyReplaceAux_skip (pat rep : List Char) (n : Nat) (l : List Char) :
    pyReplaceAux pat rep n l = pyReplaceAux pat rep 0 (l.drop n) := by
  induction n generalizing l with
  | zero => simp
  | succ m ih =>
    cases l with
    | nil => simp [pyReplaceAux]
    | cons c cs => simp [pyReplaceAux, ih]

/-- A prefix of the replacement output that avoids the replacement text's
first character is already a prefix of the input. -/
theorem isPrefixOf_pyReplaceAux_zero (pat : List Char) (r0 : Char) (rt : List Char)
    (cs : List Char) :
    ∀ r : List Char, r0 ∉ r → r.isPrefixOf (pyReplaceAux pat (r0 :: rt) 0 cs) →
      r.isPrefixOf cs := by
  induction cs with
  | nil =>
    intro r _ h
    simpa [pyReplaceAux] using h
  | cons c cs ih =>
    intro r hr0 h
    by_cases hm : pat ≠ [] ∧ pat.isPrefixOf (c :: cs)
    · rw [pyReplaceAux, if_pos hm] at h
      cases r with
      | nil => simp [List.isPrefixOf]
      | cons x xs =>
        exfalso
        rw [List.isPrefixOf_iff_prefix, List.cons_append, List.cons_prefix_cons] at h
        exact hr0 (h.1 ▸ List.mem_cons_self x xs)
    · rw [pyReplaceAux, if_neg hm] at h
      cases r with
      | nil => simp [List.isPrefixOf]
      | cons x xs =>
        rw [List.isPrefixOf_iff_prefix, List.cons_prefix_cons] at h ⊢
        exact ⟨h.1, List.isPrefixOf_iff_prefix.mp
          (ih xs (fun hx => hr0 (List.mem_cons_of_mem _ hx))
            (List.isPrefixOf_iff_prefix.mpr h.2))⟩

/-- Prepending text that avoids the pattern's first character does not
create an occurrence of the pattern. -/
theorem hasOccur_append_of_head_not_mem {p0 : Char} {pt u : List Char} (hu : p0 ∉ u)
    (v : List Char) : hasOccur (p0 :: pt) (u ++ v) = hasOccur (p0 :: pt) v := by
  induction u with
  | nil => rfl
  | cons x u ih =>
    have hx : ¬ (p0 = x) := fun h => hu (h ▸ List.mem_cons_self x u)
    rw [List.cons_append, hasOccur]
    have : (p0 :: pt).isPrefixOf (x :: (u ++ v)) = false := by
      rw [Bool.eq_false_iff]
      intro h
      rw [List.isPrefixOf_iff_prefix, List.cons_prefix_cons] at h
      exact hx h.1
    rw [this, Bool.false_or]
    exact ih fun hx' => hu (List.mem_cons_of_mem _ hx')

/-- When the pattern's first character does not occur in the replacement
and the replacement's first character does not occur in the pattern, the
output of the replacement scan contains no occurrence of the pattern. -/
theorem hasOccur_pyReplaceAux (p0 r0 : Char) (pt rt : List Char)
    (hp0 : p0 ∉ r0 :: rt) (hr0 : r0 ∉ p0 :: pt) (cs : List Char) :
    ∀ n, hasOccur (p0 :: pt) (pyReplaceAux (p0 :: pt) (r0 :: rt) n cs) = false := by
  induction cs with
  | nil => intro n; cases n <;> simp [pyReplaceAux, hasOccur]
  | cons c cs ih =>
    intro n
    cases n with
    | succ m => rw [pyReplaceAux]; exact ih m
    | zero =>
      by_cases hm : (p0 :: pt) ≠ [] ∧ (p0 :: pt).isPrefixOf (c :: cs)
      · rw [pyReplaceAux, if_pos hm, hasOccur_append_of_head_not_mem hp0]
        exact ih _
      · rw [pyReplaceAux, if_neg hm, hasOccur]
        rw [ih 0, Bool.or_false, Bool.eq_false_iff]
        intro hpre
        rw [List.isPrefixOf_iff_prefix, List.cons_prefix_cons] at hpre
        obtain ⟨rfl, hpt⟩ := hpre
        apply hm
        refine ⟨by simp, ?_⟩
        cases pt with
        | nil => simp [List.isPrefixOf]
        | cons q qt =>
          have := isPrefixOf_pyReplaceAux_zero (p0 :: q :: qt) r0 rt cs (q :: qt)
            (fun hmem => hr0 (List.mem_cons_of_mem _ hmem))
            (List.isPrefixOf_iff_prefix.mpr hpt)
          rw [List.isPrefixOf_iff_prefix] at this ⊢
          rw [List.cons_prefix_cons]
          exact ⟨rfl, this⟩

/-- Replacement is the identity on text with no occurrence of the pattern. -/
theorem pyReplaceAux_of_hasOccur_false (pat rep : List Char) :
    ∀ l, hasOccur pat l = false → pyReplaceAux pat rep 0 l = l := by
  intro l
  induction l with
  | nil => intro _; rfl
  | cons c cs ih =>
    intro h
    rw [hasOccur, Bool.or_eq_false_iff] at h
    rw [pyReplaceAux, if_neg (by simp [h.1]), ih h.2]

/-- `str.replace(pat, rep)` is idempotent whenever the pattern's first
character does not occur in the replacement and vice versa. -/
theorem pyReplace_idem (p0 r0 : Char) (pt rt : List Char)
    (hp0 : p0 ∉ r0 :: rt) (hr0 : r0 ∉ p0 :: pt) (l : List Char) :
    pyReplace (p0 :: pt) (r0 :: rt) (pyReplace (p0 :: pt) (r0 :: rt) l) =
      pyReplace (p0 :: pt) (r0 :: rt) l :=
  pyReplaceAux_of_hasOccur_false _ _ _
    (hasOccur_pyReplaceAux p0 r0 pt rt hp0 hr0 l 0)

/-- C6: the Xsim backend's in-place manifest rewrite, which replaces every
`+incdir+` token with `--include `, is idempotent — for every manifest
text, applying the rewrite twice yields the same text as applying it
once. -/
theorem c6_xsim_rewrite_idempotent (s : String) :
    xsimRewriteManifest (xsimRewriteManifest s) = xsimRewriteManifest s := by
  apply String.ext
  exact pyReplace_idem '+' '-' "incdir+".data "-include ".data
    (by decide) (by decide) s.data

/-- C7: for every run configuration with the UVM toggle set, or with a
VHDL co-simulation filelist supplied, `Verilator.run` returns failure
before launching any external process. -/
theorem c7_verilator_fails_fast (cfg : RunConfig) (exec : String → Bool)
    (h : cfg.uvm = true ∨ optTruthy cfg.vhdl_file = true) :
    verilatorRun cfg exec = (false, []) := by
  rcases h with h | h
  · simp [verilatorRun, h]
  · cases hu : cfg.uvm
    · simp [verilatorRun, hu, h]
    · simp [verilatorRun, hu]

/-- Witness for C7: a configuration with the UVM toggle set, and one with a
VHDL filelist, both return failure with no launched process. -/
theorem c7_witness :
    verilatorRun { uvm := true } (fun _ => true) = (false, []) ∧
    verilatorRun { vhdl_file := some "all.f" } (fun _ => true) = (false, []) :=
  ⟨c7_verilator_fails_fast _ _ (Or.inl rfl),
   c7_verilator_fails_fast _ _ (Or.inr (by decide))⟩

/-- C10: when discovery finds no test files, the run-mode entry point
returns exit status 0 with no manifest write, no generated artifact and no
backend selection or invocation. -/
theorem c10_no_tests_short_circuit (roots : List (List SvPath))
    (cwd inst outdir : String) (uvm exp simResolved simOk : Bool)
    (simName : String) (h : discoverNoTests roots = []) :
    runMain roots cwd inst outdir uvm exp simResolved simName simOk = (0, []) := by
  simp [runMain, h]

/-- Witness for C10: a tree with files but no `*_unit_test.sv` match
discovers nothing, and the entry point exits 0 with an empty effect
trace. -/
theorem c10_witness :
    discoverNoTests [[⟨"/w", "top.sv"⟩, ⟨"/w/a", "notes.md"⟩]] = [] ∧
    runMain [[⟨"/w", "top.sv"⟩, ⟨"/w/a", "notes.md"⟩]]
      "/w" "/opt/svunit" "." false false true "vcs" true = (0, []) :=
  ⟨by decide, c10_no_tests_short_circuit _ _ _ _ _ _ _ _ _ (by decide)⟩

/-! ## Lemmas on discovery and grouping -/

theorem getTestSuites_concat (l : List SvPath) (t : SvPath) :
    getTestSuites (l ++ [t]) = addToSuites (getTestSuites l) t := by
  simp [getTestSuites, List.foldl_append]

theorem firstKeys_concat (l : List SvPath) (t : SvPath) :
    firstKeys (l ++ [t]) =
      if t.parent ∈ firstKeys l then firstKeys l else firstKeys l ++ [t.parent] := by
  simp [firstKeys, List.foldl_append]

theorem mem_firstKeysAux (l : List SvPath) :
    ∀ (acc : List String) (k : String),
      (k ∈ l.foldl (fun ks t => if t.parent ∈ ks then ks else ks ++ [t.parent]) acc ↔
        k ∈ acc ∨ ∃ t ∈ l, t.parent = k) := by
  induction l with
  | nil => intro acc k; simp
  | cons t l ih =>
    intro acc k
    rw [List.foldl_cons, ih]
    by_cases hp : t.parent ∈ acc
    · simp only [if_pos hp]
      constructor
      · rintro (h | ⟨u, hu, hk⟩)
        · exact Or.inl h
        · exact Or.inr ⟨u, List.mem_cons_of_mem _ hu, hk⟩
      · rintro (h | ⟨u, hu, hk⟩)
        · exact Or.inl h
        · rcases List.mem_cons.mp hu with rfl | hu
          · exact Or.inl (hk ▸ hp)
          · exact Or.inr ⟨u, hu, hk⟩
    · simp only [if_neg hp, List.mem_append, List.mem_singleton]
      constructor
      · rintro ((h | h) | ⟨u, hu, hk⟩)
        · exact Or.inl h
        · exact Or.inr ⟨t, List.mem_cons_self _ _, h.symm⟩
        · exact Or.inr ⟨u, List.mem_cons_of_mem _ hu, hk⟩
      · rintro (h | ⟨u, hu, hk⟩)
        · exact Or.inl (Or.inl h)
        · rcases List.mem_cons.mp hu with rfl | hu
          · exact Or.inl (Or.inr hk.symm)
          · exact Or.inr ⟨u, hu, hk⟩

theorem mem_firstKeys (l : List SvPath) (k : String) :
    k ∈ firstKeys l ↔ ∃ t ∈ l, t.parent = k := by
  rw [firstKeys, mem_firstKeysAux]; simp

theorem nodup_firstKeysAux (l : List SvPath) :
    ∀ acc : List String, acc.Nodup →
      (l.foldl (fun ks t => if t.parent ∈ ks then ks else ks ++ [t.parent]) acc).Nodup := by
  induction l with
  | nil => intro acc h; exact h
  | cons t l ih =>
    intro acc h
    rw [List.foldl_cons]
    apply ih
    by_cases hp : t.parent ∈ acc
    · simpa [hp] using h
    · simp only [if_neg hp]
      exact List.Nodup.append h (List.nodup_singleton _) (by simpa using hp)

theorem nodup_firstKeys (l : List SvPath) : (firstKeys l).Nodup :=
  nodup_firstKeysAux l [] List.nodup_nil
theorem filter_eq_nil_of_not_mem_firstKeys (l : List SvPath) (k : String)
    (h : k ∉ firstKeys l) : l.filter (fun t => t.parent = k) = [] := by
  rw [List.filter_eq_nil_iff]
  intro t ht
  simp only [decide_eq_true_eq]
  intro hk
  exact h ((mem_firstKeys l k).mpr ⟨t, ht, hk⟩)

theorem getTestSuites_eq_groupSpec (found : List SvPath) :
    getTestSuites found =
      (firstKeys found).map fun k => (k, found.filter fun t => t.parent = k) := by
  induction found using List.reverseRecOn with
  | nil => rfl
  | append_singleton l x ih =>
    rw [getTestSuites_concat, firstKeys_concat, ih]
    by_cases hp : x.parent ∈ firstKeys l
    · rw [if_pos hp]
      unfold addToSuites
      have hany : (((firstKeys l).map fun k =>
          (k, l.filter fun t => t.parent = k)).any fun kv => kv.1 = x.parent) = true := by
        rw [List.any_eq_true]
        exact ⟨(x.parent, l.filter fun t => t.parent = x.parent),
          List.mem_map_of_mem _ hp, by simp⟩
      rw [if_pos hany]
      simp only [List.map_map]
      apply List.map_congr_left
      intro k hk
      by_cases hkx : k = x.parent
      · subst hkx
        simp [Function.comp, List.filter_append]
      · simp [Function.comp, hkx, List.filter_append, Ne.symm hkx]
    · rw [if_neg hp]
      unfold addToSuites
      have hany : (((firstKeys l).map fun k =>
          (k, l.filter fun t => t.parent = k)).any fun kv => kv.1 = x.parent) = false := by
        rw [List.any_eq_false]
        intro kv hkv
        rcases List.mem_map.mp hkv with ⟨k, hk, rfl⟩
        simp only [decide_eq_true_eq]
        intro hkx
        exact hp (hkx ▸ hk)
      rw [if_neg (by simp [hany]), List.map_append]
      congr 1
      · apply List.map_congr_left
        intro k hk
        have hkx : ¬ (x.parent = k) := fun h => hp (h ▸ hk)
        simp [List.filter_append, hkx]
      · simp [List.filter_append,
          filter_eq_nil_of_not_mem_firstKeys l x.parent hp]
theorem discover_length_aux (roots : List (List SvPath)) :
    ∀ acc : List SvPath,
      (roots.foldl (fun a d => a ++ findTestsInDirectory d) acc).length =
        acc.length + (roots.map fun d => d.countP fun p => matchesUnitTestGlob p.name).sum := by
  induction roots with
  | nil => intro acc; simp
  | cons d roots ih =>
    intro acc
    rw [List.foldl_cons, ih]
    simp [findTestsInDirectory, ← List.countP_eq_length_filter]
    ring

/-- C2: for every directory tree (each root given by its recursive listing),
discovery with no explicit test names yields exactly the files whose names
match `*_unit_test.sv` — `N` of them — and `get_test_suites` partitions them
into exactly `D` groups, `D` being the number of distinct parent
directories: group keys are the parents in first-discovery order (hence
pairwise distinct and exactly the parents that occur), every file in a
group has the group's key as parent, and each group lists exactly the
discovered files of its key, in discovery order. -/
theorem c2_discovery_groups (roots : List (List SvPath)) :
    (discoverNoTests roots).length =
        (roots.map fun d => d.countP fun p => matchesUnitTestGlob p.name).sum ∧
    (getTestSuites (discoverNoTests roots)).map Prod.fst =
        firstKeys (discoverNoTests roots) ∧
    (firstKeys (discoverNoTests roots)).Nodup ∧
    (∀ k : String, k ∈ firstKeys (discoverNoTests roots) ↔
        ∃ t ∈ discoverNoTests roots, t.parent = k) ∧
    (getTestSuites (discoverNoTests roots)).length =
        (firstKeys (discoverNoTests roots)).length ∧
    (∀ kv ∈ getTestSuites (discoverNoTests roots),
        kv.2 = (discoverNoTests roots).filter fun t => t.parent = kv.1) ∧
    (∀ kv ∈ getTestSuites (discoverNoTests roots), ∀ t ∈ kv.2, t.parent = kv.1) := by
  set found := discoverNoTests roots with hfound
  refine ⟨?_, ?_, nodup_firstKeys found, mem_firstKeys found, ?_, ?_, ?_⟩
  · rw [hfound, discoverNoTests, discover_length_aux]; simp
  · rw [getTestSuites_eq_groupSpec, List.map_map]
    exact List.map_id _
  · rw [getTestSuites_eq_groupSpec]
    simp
  · intro kv hkv
    rw [getTestSuites_eq_groupSpec] at hkv
    rcases List.mem_map.mp hkv with ⟨k, _, rfl⟩
    rfl
  · intro kv hkv t ht
    rw [getTestSuites_eq_groupSpec] at hkv
    rcases List.mem_map.mp hkv with ⟨k, _, rfl⟩
    have := List.of_mem_filter ht
    simpa using this

/-- Witness for C2, at the spec's own example tree
`{a/foo_unit_test.sv, a/bar_unit_test.sv, b/baz_unit_test.sv}`: discovery
finds the three files and groups them into the two suites `a` and `b`. -/
theorem c2_witness :
    (getTestSuites (discoverNoTests
        [[⟨"a", "foo_unit_test.sv"⟩, ⟨"a", "bar_unit_test.sv"⟩,
          ⟨"b", "baz_unit_test.sv"⟩]])).map Prod.fst =
      firstKeys (discoverNoTests
        [[⟨"a", "foo_unit_test.sv"⟩, ⟨"a", "bar_unit_test.sv"⟩,
          ⟨"b", "baz_unit_test.sv"⟩]]) ∧
    getTestSuites (discoverNoTests
        [[⟨"a", "foo_unit_test.sv"⟩, ⟨"a", "bar_unit_test.sv"⟩,
          ⟨"b", "baz_unit_test.sv"⟩]]) =
      [("a", [⟨"a", "foo_unit_test.sv"⟩, ⟨"a", "bar_unit_test.sv"⟩]),
       ("b", [⟨"b", "baz_unit_test.sv"⟩])] :=
  ⟨(c2_discovery_groups _).2.1, by decide⟩

/-! ## Lemmas on the generated text -/

theorem foldl_append_concatStrs {α : Type} (f : α → String) (l : List α) (s : String) :
    l.foldl (fun acc x => acc ++ f x) s = s ++ concatStrs (l.map f) := by
  induction l generalizing s with
  | nil => simp [concatStrs]
  | cons x xs ih =>
    rw [List.foldl_cons, ih]
    show s ++ f x ++ concatStrs (xs.map f) = s ++ concatStrs (f x :: xs.map f)
    rw [String.append_assoc]
    rfl

theorem map_zip_self {α β γ : Type} (g : α → β) (f : α × β → γ) (l : List α) :
    (l.zip (l.map g)).map f = l.map fun x => f (x, g x) := by
  induction l with
  | nil => rfl
  | cons x xs ih => rw [List.map_cons, List.zip_cons_cons, List.map_cons, ih]; rfl

/-- C1 (suite half): the text `create_testsuite` writes decomposes into a
head depending only on the output stem, the per-identifier declaration
fragments, the fixed build head, the per-identifier build fragments, the
aggregate construction, the per-identifier registrations, the fixed run
head, the per-identifier run fragments and a fixed tail — each fragment a
function of its single identifier alone. -/
theorem createTestsuiteText_decomposition (outStem : String) (names : List String) :
    createTestsuiteText outStem names =
      suitePre outStem ++ concatStrs (names.map suiteDeclFrag)
        ++ suiteBuildHead ++ concatStrs (names.map suiteBuildFrag)
        ++ suiteBuildMid ++ concatStrs (names.map suiteAddFrag)
        ++ suiteRunHead ++ concatStrs (names.map suiteRunFrag)
        ++ suiteTail := by
  simp only [createTestsuiteText, foldl_append_concatStrs, map_zip_self, List.map_map]
  delta suiteDeclFrag suiteBuildFrag suiteAddFrag suiteRunFrag suiteInstOf
  simp only [suitePre, suiteBuildHead, suiteBuildMid, suiteRunHead, suiteTail,
    Function.comp_def, String.append_assoc]
/-- C1 (runner half): the text `create_testrunner` writes decomposes into a
fixed head, the per-suite declaration fragments, the fixed main/build head,
the per-suite build fragments, the fixed run head, the per-suite run
fragments and a fixed tail — each fragment a function of its single suite
file name alone. -/
theorem createTestrunnerText_decomposition (names : List String) :
    createTestrunnerText names =
      runnerPre ++ concatStrs (names.map runnerDeclFrag)
        ++ runnerBuildHead ++ concatStrs (names.map runnerBuildFrag)
        ++ runnerRunHead ++ concatStrs (names.map runnerRunFrag)
        ++ runnerTail := by
  simp only [createTestrunnerText, foldl_append_concatStrs, List.zip_map', List.map_map]
  delta runnerDeclFrag runnerBuildFrag runnerRunFrag runnerInstOf runnerClsOf
  simp only [runnerPre, runnerBuildHead, runnerRunHead, runnerTail,
    Function.comp_def, String.append_assoc]

/-- C1: `create_testsuite` and `create_testrunner` are pure functions of
their ordered identifier input — the generated text is exactly a fixed
skeleton interleaved with per-identifier fragments, each fragment a
function of its single identifier alone, so identical ordered input yields
byte-identical output and permuting the input permutes the per-identifier
declarations and statements without changing any individual identifier's
text. -/
theorem c1_generation_pure (outStem : String) (names suiteNames : List String) :
    createTestsuiteText outStem names =
      suitePre outStem ++ concatStrs (names.map suiteDeclFrag)
        ++ suiteBuildHead ++ concatStrs (names.map suiteBuildFrag)
        ++ suiteBuildMid ++ concatStrs (names.map suiteAddFrag)
        ++ suiteRunHead ++ concatStrs (names.map suiteRunFrag)
        ++ suiteTail ∧
    createTestrunnerText suiteNames =
      runnerPre ++ concatStrs (suiteNames.map runnerDeclFrag)
        ++ runnerBuildHead ++ concatStrs (suiteNames.map runnerBuildFrag)
        ++ runnerRunHead ++ concatStrs (suiteNames.map runnerRunFrag)
        ++ runnerTail :=
  ⟨createTestsuiteText_decomposition outStem names,
   createTestrunnerText_decomposition suiteNames⟩

/-! ## C3 — instance-name derivation -/

/-- When the trailing occurrence of `pat` is the only one, replacing every
occurrence coincides with replacing just the trailing occurrence. -/
theorem pyReplace_trailing_only (pat rep : List Char) (hpat : pat ≠ []) :
    ∀ p : List Char, (∀ i, i < p.length → pat.isPrefixOf ((p ++ pat).drop i) = false) →
      pyReplace pat rep (p ++ pat) = p ++ rep := by
  intro p
  induction p with
  | nil =>
    intro _
    cases pat with
    | nil => exact absurd rfl hpat
    | cons q qt =>
      show pyReplaceAux (q :: qt) rep 0 (q :: qt) = [] ++ rep
      rw [pyReplaceAux,
        if_pos ⟨hpat, List.isPrefixOf_iff_prefix.mpr (List.prefix_refl _)⟩,
        pyReplaceAux_skip]
      simp [List.drop_length, pyReplaceAux]
  | cons c p' ih =>
    intro h
    have h0 := h 0 (by simp)
    rw [List.drop_zero, List.cons_append] at h0
    have ih' := ih fun i hi => by
      have := h (i + 1) (by simpa using Nat.succ_lt_succ hi)
      rwa [List.cons_append, List.drop_succ_cons] at this
    rw [pyReplace] at ih'
    show pyReplaceAux pat rep 0 (c :: (p' ++ pat)) = (c :: p') ++ rep
    rw [pyReplaceAux, if_neg (by simp [h0]), ih']
    rfl
/-- Counterexample to C3: the extracted identifier
`a_unit_test_b_unit_test` contains a non-trailing `_unit_test`, and the
instance name emitted by `create_testsuite` is `a_ut_b_ut` — every
occurrence is replaced, not only the trailing one as the claim states
(that would give `a_unit_test_b_ut`); likewise the runner's instance name
for `a_testsuite_b_testsuite.sv` is `a_ts_b_ts`, not `a_testsuite_b_ts`. -/
theorem c3_counterexample :
    parseUnitTestName "module a_unit_test_b_unit_test;\n" = some "a_unit_test_b_unit_test" ∧
    suiteDeclFrag "a_unit_test_b_unit_test" = "  a_unit_test_b_unit_test a_ut_b_ut();\n" ∧
    suiteInstOf "a_unit_test_b_unit_test" ≠
      replaceTrailingSpec "_unit_test" "_ut" "a_unit_test_b_unit_test" ∧
    runnerDeclFrag "a_testsuite_b_testsuite.sv" = "  a_testsuite_b_testsuite a_ts_b_ts();\n" ∧
    runnerInstOf "a_testsuite_b_testsuite.sv" ≠
      replaceTrailingSpec "_testsuite" "_ts" "a_testsuite_b_testsuite" := by
  refine ⟨by decide, by decide, by decide, by decide, by decide⟩

/-- C3 as amended: instance names are derived with Python's `str.replace`,
which replaces every occurrence of `_unit_test` (resp. `_testsuite`);
when the trailing occurrence is the only one this coincides with the
claim's trailing-only replacement: for an identifier `p ++ "_unit_test"`
with no other occurrence, the emitted instance name is `p ++ "_ut"`, and
for a suite identifier `q ++ "_testsuite"` with no other occurrence, the
runner instance name is `q ++ "_ts"`. -/
theorem c3_amended_single_occurrence (p q : String)
    (hp : ∀ i, i < p.data.length →
      "_unit_test".data.isPrefixOf ((p.data ++ "_unit_test".data).drop i) = false)
    (hq : ∀ i, i < q.data.length →
      "_testsuite".data.isPrefixOf ((q.data ++ "_testsuite".data).drop i) = false) :
    suiteInstOf ⟨p.data ++ "_unit_test".data⟩ = ⟨p.data ++ "_ut".data⟩ ∧
    pyReplaceS "_testsuite" "_ts" ⟨q.data ++ "_testsuite".data⟩ = ⟨q.data ++ "_ts".data⟩ :=
  ⟨String.ext (pyReplace_trailing_only "_unit_test".data "_ut".data (by decide) p.data hp),
   String.ext (pyReplace_trailing_only "_testsuite".data "_ts".data (by decide) q.data hq)⟩

/-- Witness for the amended C3 at `widget_unit_test` / `mysuite_testsuite`. -/
theorem c3_amended_witness :
    suiteInstOf "widget_unit_test" = "widget_ut" ∧
    pyReplaceS "_testsuite" "_ts" "mysuite_testsuite" = "mysuite_ts" :=
  c3_amended_single_occurrence "widget" "mysuite" (by decide) (by decide)

/-! ## C4 — lazy versus greedy block-comment stripping -/

/-- Case equation for the block-comment scan in normal state. -/
theorem removeBlockAux_none_cons (c : Char) (cs : List Char) :
    removeBlockAux none (c :: cs) =
      if c = '/' ∧ cs.head? = some '*' then removeBlockAux (some ['*', '/']) cs.tail
      else c :: removeBlockAux none cs := by
  by_cases hc : c = '/'
  · subst hc
    cases cs with
    | nil => simp [removeBlockAux]
    | cons d rest =>
      by_cases hd : d = '*'
      · subst hd; simp [removeBlockAux]
      · simp [removeBlockAux, hd]
  · cases cs with
    | nil => simp [removeBlockAux, hc]
    | cons d rest => simp [removeBlockAux, hc]

/-- Case equation for the block-comment scan inside a candidate comment. -/
theorem removeBlockAux_some_cons (buf : List Char) (c : Char) (cs : List Char) :
    removeBlockAux (some buf) (c :: cs) =
      if c = '*' ∧ cs.head? = some '/' then removeBlockAux none cs.tail
      else removeBlockAux (some (c :: buf)) cs := by
  by_cases hc : c = '*'
  · subst hc
    cases cs with
    | nil => simp [removeBlockAux]
    | cons d rest =>
      by_cases hd : d = '/'
      · subst hd; simp [removeBlockAux]
      · simp [removeBlockAux, hd]
  · cases cs with
    | nil => simp [removeBlockAux, hc]
    | cons d rest => simp [removeBlockAux, hc]

/-- Inside a candidate comment whose remaining body contains no `*/`, the
scan consumes the body and the closer and resumes after it. -/
theorem removeBlockAux_some_through (t : List Char) :
    ∀ buf rest, hasOccur ['*', '/'] t = false →
      removeBlockAux (some buf) (t ++ '*' :: '/' :: rest) = removeBlockAux none rest := by
  induction t with
  | nil => intro buf rest _; simp [removeBlockAux]
  | cons a t' ih =>
    intro buf rest h
    rw [hasOccur, Bool.or_eq_false_iff] at h
    rw [List.cons_append, removeBlockAux_some_cons]
    rw [if_neg ?hneg]
    case hneg =>
      rintro ⟨rfl, hhd⟩
      cases t' with
      | nil => simp at hhd
      | cons b t'' =>
        rw [List.cons_append, List.head?_cons] at hhd
        have hb : b = '/' := by simpa using hhd
        subst hb
        simp [List.isPrefixOf] at h
    exact ih _ _ h.2

/-- C4 as amended: block comments are stripped lazily — the removed span
for a `/*` extends to the nearest following `*/` (for any continuation
`rest`, even one containing further `*/` tokens that a greedy reading
would swallow), after which scanning resumes. -/
theorem c4_amended_lazy_block_removal (t rest : List Char)
    (h : hasOccur ['*', '/'] t = false) :
    removeBlockComments (('/' :: '*' :: t) ++ '*' :: '/' :: rest) =
      removeBlockComments rest := by
  show removeBlockAux none ('/' :: '*' :: (t ++ '*' :: '/' :: rest)) = removeBlockAux none rest
  rw [removeBlockAux_none_cons, if_pos (by simp)]
  exact removeBlockAux_some_through t _ rest h

/-- Witness for the amended C4: stripping `/* a */` stops at the nearest
closer even though more text follows. -/
theorem c4_amended_witness :
    hasOccur ['*', '/'] " a ".data = false ∧
    removeBlockComments (('/' :: '*' :: " a ".data) ++ '*' :: '/' :: " module x_unit_test;\n".data) =
      removeBlockComments " module x_unit_test;\n".data :=
  ⟨by decide, c4_amended_lazy_block_removal _ _ (by decide)⟩

/-- Counterexample to C4: on `/* a */ module widget_unit_test;\n/* b */`
the code's lazy stripping leaves the declaration and extracts
`widget_unit_test`, whereas the claimed greedy stripping (furthest `*/`)
would remove the declaration and extract nothing. -/
theorem c4_counterexample :
    parseUnitTestName "/* a */ module widget_unit_test;\n/* b */" = some "widget_unit_test" ∧
    parseUnitTestNameGreedySpec "/* a */ module widget_unit_test;\n/* b */" = none := by
  refine ⟨by decide, by decide⟩

/-! ## C9 — default run-mode flag injection -/

/-- Counterexample to C9: `Vcs.run`, with no explicit mode-selecting flag
supplied (empty `sim_args`), builds a command containing no injected
run-mode flag at all — no `-c`, `-gui` or `-i` occurs in it — contradicting
the claim that every backend injects a default non-interactive flag when
the caller supplied none. -/
theorem c9_counterexample :
    ({} : RunConfig).sim_args.any isModeFlag = false ∧
    vcsRunCmd {} = "vcs -R -sverilog -l run.log  -f .svunit.f -top testrunner" ∧
    hasOccur "-c".data "vcs -R -sverilog -l run.log  -f .svunit.f -top testrunner".data = false ∧
    hasOccur "-gui".data "vcs -R -sverilog -l run.log  -f .svunit.f -top testrunner".data = false ∧
    hasOccur "-i".data "vcs -R -sverilog -l run.log  -f .svunit.f -top testrunner".data = false := by
  refine ⟨by decide, by decide, by decide, by decide, by decide⟩

/-- C9 as amended: the ModelSim backend (alone among the adapters) injects
the default non-interactive flag, and does so exactly when the caller
supplied no explicit mode-selecting flag: its effective simulate-phase
arguments are the caller's own when one of `-c`/`-gui`/`-i` is present,
are the caller's with `-c` appended otherwise, and always end up
containing a mode flag. -/
theorem c9_amended_modelsim_mode_flag (args : List String) :
    (args.any isModeFlag = true → modelSimEffectiveSimArgs args = args) ∧
    (args.any isModeFlag = false → modelSimEffectiveSimArgs args = args ++ ["-c"]) ∧
    (modelSimEffectiveSimArgs args).any isModeFlag = true := by
  unfold modelSimEffectiveSimArgs
  by_cases h : args.any isModeFlag
  · refine ⟨fun _ => by rw [if_pos h], fun hf => absurd h (by simp [hf]), ?_⟩
    rw [if_pos h]; exact h
  · refine ⟨fun ht => absurd ht h, fun _ => by rw [if_neg h], ?_⟩
    rw [if_neg h, List.any_append]
    simp [isModeFlag]

/-- Witness for the amended C9: with no caller-supplied simulate-phase
arguments, ModelSim appends `-c`, and a mode flag is then present. -/
theorem c9_amended_witness :
    modelSimEffectiveSimArgs [] = [] ++ ["-c"] ∧
    (modelSimEffectiveSimArgs []).any isModeFlag = true :=
  ⟨(c9_amended_modelsim_mode_flag []).2.1 (by decide),
   (c9_amended_modelsim_mode_flag []).2.2⟩

/-! ## C8 — manifest ordering -/

theorem foldl_append_flatMap {α β : Type} (f : α → List β) (l : List α) (acc : List β) :
    l.foldl (fun a x => a ++ f x) acc = acc ++ l.flatMap f := by
  induction l generalizing acc with
  | nil => simp
  | cons x xs ih => rw [List.foldl_cons, ih, List.flatMap_cons, List.append_assoc]

/-- C8: the manifest lines appear in the fixed order — the working
directory include directive first; then the bundled support-library
include directories and package sources, the UVM mock pair present iff the
UVM flag is set and the experimental pair present iff its flag is set (each
include directory immediately before the package file that relies on it);
then, for each discovered suite in order, its member test files, its
include directory, and its generated suite artifact; and the generated
runner artifact as the very last line.  In particular every suite's block
occurs contiguously (members first, then its include directory, then the
generated suite file that aggregates them). -/
theorem c8_manifest_order (cwd inst outdir : String) (uvm exp : Bool)
    (suites : List (String × List String)) :
    manifestLines cwd inst outdir uvm exp suites =
      (["+incdir+" ++ cwd,
        "+incdir+" ++ inst ++ "/svunit_base/junit-xml",
        inst ++ "/svunit_base/junit-xml/junit_xml.sv",
        "+incdir+" ++ inst ++ "/svunit_base",
        inst ++ "/svunit_base/svunit_pkg.sv"]
        ++ (if uvm then
              ["+incdir+" ++ inst ++ "/svunit_base/uvm-mock",
               inst ++ "/svunit_base/uvm-mock/svunit_uvm_mock_pkg.sv"]
            else [])
        ++ (if exp then
              ["+incdir+" ++ inst ++ "/src/experimental/sv",
               inst ++ "/src/experimental/sv/svunit.sv"]
            else [])
        ++ (suites.flatMap fun s => s.2 ++ ["+incdir+" ++ s.1, tsPath outdir cwd s.1])
        ++ [trPath outdir]) ∧
    (manifestLines cwd inst outdir uvm exp suites).head? = some ("+incdir+" ++ cwd) ∧
    (manifestLines cwd inst outdir uvm exp suites).getLast? = some (trPath outdir) ∧
    (∀ s ∈ suites, ∃ pre post, manifestLines cwd inst outdir uvm exp suites =
      pre ++ s.2 ++ ["+incdir+" ++ s.1, tsPath outdir cwd s.1] ++ post) := by
  have hmain : manifestLines cwd inst outdir uvm exp suites =
      (["+incdir+" ++ cwd,
        "+incdir+" ++ inst ++ "/svunit_base/junit-xml",
        inst ++ "/svunit_base/junit-xml/junit_xml.sv",
        "+incdir+" ++ inst ++ "/svunit_base",
        inst ++ "/svunit_base/svunit_pkg.sv"]
        ++ (if uvm then
              ["+incdir+" ++ inst ++ "/svunit_base/uvm-mock",
               inst ++ "/svunit_base/uvm-mock/svunit_uvm_mock_pkg.sv"]
            else [])
        ++ (if exp then
              ["+incdir+" ++ inst ++ "/src/experimental/sv",
               inst ++ "/src/experimental/sv/svunit.sv"]
            else [])
        ++ (suites.flatMap fun s => s.2 ++ ["+incdir+" ++ s.1, tsPath outdir cwd s.1])
        ++ [trPath outdir]) := by
    simp only [manifestLines]
    cases uvm <;> cases exp <;> simp [foldl_append_flatMap, List.append_assoc]
  refine ⟨hmain, ?_, ?_, ?_⟩
  · rw [hmain]; rfl
  · rw [hmain]
    rw [show (["+incdir+" ++ cwd,
        "+incdir+" ++ inst ++ "/svunit_base/junit-xml",
        inst ++ "/svunit_base/junit-xml/junit_xml.sv",
        "+incdir+" ++ inst ++ "/svunit_base",
        inst ++ "/svunit_base/svunit_pkg.sv"]
        ++ (if uvm then
              ["+incdir+" ++ inst ++ "/svunit_base/uvm-mock",
               inst ++ "/svunit_base/uvm-mock/svunit_uvm_mock_pkg.sv"]
            else [])
        ++ (if exp then
              ["+incdir+" ++ inst ++ "/src/experimental/sv",
               inst ++ "/src/experimental/sv/svunit.sv"]
            else [])
        ++ (suites.flatMap fun s => s.2 ++ ["+incdir+" ++ s.1, tsPath outdir cwd s.1])
        ++ [trPath outdir])
      = (["+incdir+" ++ cwd,
        "+incdir+" ++ inst ++ "/svunit_base/junit-xml",
        inst ++ "/svunit_base/junit-xml/junit_xml.sv",
        "+incdir+" ++ inst ++ "/svunit_base",
        inst ++ "/svunit_base/svunit_pkg.sv"]
        ++ (if uvm then
              ["+incdir+" ++ inst ++ "/svunit_base/uvm-mock",
               inst ++ "/svunit_base/uvm-mock/svunit_uvm_mock_pkg.sv"]
            else [])
        ++ (if exp then
              ["+incdir+" ++ inst ++ "/src/experimental/sv",
               inst ++ "/src/experimental/sv/svunit.sv"]
            else [])
        ++ (suites.flatMap fun s => s.2 ++ ["+incdir+" ++ s.1, tsPath outdir cwd s.1]))
        ++ [trPath outdir] by simp [List.append_assoc]]
    exact List.getLast?_concat _
  · intro s hs
    rcases List.mem_iff_append.mp hs with ⟨l1, l2, rfl⟩
    refine ⟨(["+incdir+" ++ cwd,
        "+incdir+" ++ inst ++ "/svunit_base/junit-xml",
        inst ++ "/svunit_base/junit-xml/junit_xml.sv",
        "+incdir+" ++ inst ++ "/svunit_base",
        inst ++ "/svunit_base/svunit_pkg.sv"]
        ++ (if uvm then
              ["+incdir+" ++ inst ++ "/svunit_base/uvm-mock",
               inst ++ "/svunit_base/uvm-mock/svunit_uvm_mock_pkg.sv"]
            else [])
        ++ (if exp then
              ["+incdir+" ++ inst ++ "/src/experimental/sv",
               inst ++ "/src/experimental/sv/svunit.sv"]
            else [])
        ++ (l1.flatMap fun s => s.2 ++ ["+incdir+" ++ s.1, tsPath outdir cwd s.1])),
      ((l2.flatMap fun s => s.2 ++ ["+incdir+" ++ s.1, tsPath outdir cwd s.1])
        ++ [trPath outdir]), ?_⟩
    rw [hmain, List.flatMap_append, List.flatMap_cons]
    simp [List.append_assoc]
/-- Witness for C8 at a one-suite run: the first manifest line is the
working-directory include directive and the last is the runner artifact. -/
theorem c8_witness :
    (manifestLines "/w" "/i" "." false false
        [("/w/a", ["/w/a/t_unit_test.sv"])]).head? = some ("+incdir+" ++ "/w") ∧
    (manifestLines "/w" "/i" "." false false
        [("/w/a", ["/w/a/t_unit_test.sv"])]).getLast? = some (trPath ".") :=
  ⟨(c8_manifest_order "/w" "/i" "." false false [("/w/a", ["/w/a/t_unit_test.sv"])]).2.1,
   (c8_manifest_order "/w" "/i" "." false false [("/w/a", ["/w/a/t_unit_test.sv"])]).2.2.1⟩

/-! ## C5 — comment-insertion invariance -/

/-- In comment state the scan drops text up to the next newline, keeps the
newline, and resumes. -/
theorem removeLineCommentsAux_true_through (t : List Char) (rest : List Char)
    (h : '\n' ∉ t) :
    removeLineCommentsAux true (t ++ '\n' :: rest) =
      '\n' :: removeLineCommentsAux false rest := by
  induction t with
  | nil => simp [removeLineCommentsAux]
  | cons a t' ih =>
    have ha : ¬ (a = '\n') := fun hh => h (hh ▸ List.mem_cons_self a t')
    rw [List.cons_append, removeLineCommentsAux, if_neg ha]
    exact ih fun hm => h (List.mem_cons_of_mem _ hm)

/-- A `//` at the head of the input enters comment state. -/
theorem removeLineComments_double_slash (x : List Char) :
    removeLineComments ('/' :: '/' :: x) = removeLineCommentsAux true x := by
  rw [removeLineComments, removeLineCommentsAux, if_pos (by simp),
    removeLineCommentsAux, if_neg (by simp)]

/-- A one-element list is a prefix exactly of lists with that head. -/
theorem singleton_prefix_head (y : Char) (l : List Char) :
    [y] <+: l ↔ l.head? = some y := by
  cases l with
  | nil => simp
  | cons a l' =>
    rw [List.cons_prefix_cons]
    simp [eq_comm]

/-- The head of `t ++ sfx` agrees with the head of `t ++ sfx.take 1`. -/
theorem head?_append_take_one (t sfx : List Char) :
    (t ++ sfx).head? = (t ++ sfx.take 1).head? := by
  cases t with
  | nil => cases sfx <;> rfl
  | cons a t' => rfl

/-- Two-character-pattern occurrence check across an append, given no
occurrence inside the left part or at its junction with the right part. -/
theorem hasOccur_pair_append (x y : Char) (t sfx : List Char)
    (h : hasOccur [x, y] (t ++ sfx.take 1) = false)
    (hs : hasOccur [x, y] sfx = false) :
    hasOccur [x, y] (t ++ sfx) = false := by
  induction t with
  | nil => simpa using hs
  | cons a t' ih =>
    rw [List.cons_append, hasOccur, Bool.or_eq_false_iff]
    rw [List.cons_append, hasOccur, Bool.or_eq_false_iff] at h
    refine ⟨?_, ih h.2⟩
    rw [Bool.eq_false_iff] at h ⊢
    intro hpre
    apply h.1
    rw [List.isPrefixOf_iff_prefix, List.cons_prefix_cons] at hpre ⊢
    refine ⟨hpre.1, ?_⟩
    rw [singleton_prefix_head] at hpre ⊢
    rw [← head?_append_take_one]
    exact hpre.2

/-- Appending a character that differs from the pattern's second character
creates no new occurrence of a two-character pattern. -/
theorem hasOccur_pair_snoc (x y z : Char) (t : List Char) (hz : ¬ (y = z))
    (h : hasOccur [x, y] t = false) :
    hasOccur [x, y] (t ++ [z]) = false := by
  induction t with
  | nil =>
    rw [List.nil_append, hasOccur]
    have : [x, y].isPrefixOf [z] = false := by
      rw [Bool.eq_false_iff]
      intro hpre
      rw [List.isPrefixOf_iff_prefix, List.cons_prefix_cons] at hpre
      simpa using hpre.2
    rw [this]
    rfl
  | cons a t' ih =>
    rw [hasOccur, Bool.or_eq_false_iff] at h
    rw [List.cons_append, hasOccur, Bool.or_eq_false_iff]
    refine ⟨?_, ih h.2⟩
    rw [Bool.eq_false_iff] at h ⊢
    intro hpre
    apply h.1
    rw [List.isPrefixOf_iff_prefix, List.cons_prefix_cons] at hpre ⊢
    refine ⟨hpre.1, ?_⟩
    rw [singleton_prefix_head] at hpre ⊢
    cases t' with
    | nil =>
      exfalso
      rw [List.nil_append, List.head?_cons] at hpre
      have : z = y := by simpa using hpre.2
      exact hz this.symm
    | cons b t'' =>
      simpa using hpre.2
/-- Text containing no `//` (also jointly with the first following
character) passes through the line-comment scan unchanged. -/
theorem removeLineCommentsAux_append (a b : List Char)
    (h : hasOccur ['/', '/'] (a ++ b.take 1) = false) :
    removeLineCommentsAux false (a ++ b) = a ++ removeLineCommentsAux false b := by
  induction a with
  | nil => rfl
  | cons c a' ih =>
    rw [List.cons_append, hasOccur, Bool.or_eq_false_iff] at h
    rw [List.cons_append, removeLineCommentsAux, if_neg ?hneg, ih h.2, List.cons_append]
    case hneg =>
      rintro ⟨rfl, hhd⟩
      rw [Bool.eq_false_iff] at h
      apply h.1
      rw [List.isPrefixOf_iff_prefix, List.cons_prefix_cons]
      refine ⟨rfl, ?_⟩
      rw [singleton_prefix_head, ← head?_append_take_one]
      exact hhd

/-- A newline passes through the block-comment scan in normal state. -/
theorem removeBlockComments_newline (x : List Char) :
    removeBlockComments ('\n' :: x) = '\n' :: removeBlockComments x := by
  rw [removeBlockComments, removeBlockAux_none_cons, if_neg (by simp)]
  rfl

/-- A non-word character that cannot start the keyword passes through the
keyword-removal scan, resetting the boundary state. -/
theorem removeWordAux_cons_nonword (w : List Char) (b : Bool) (c : Char) (x : List Char)
    (hw : w.head? ≠ some c) (hc : isWordChar c = false) :
    removeWordAux w 0 b (c :: x) = c :: removeWordAux w 0 false x := by
  rw [removeWordAux, if_neg ?hneg, hc]
  case hneg =>
    rintro ⟨hne, -, hpre, -⟩
    cases w with
    | nil => exact hne rfl
    | cons w0 wt =>
      rw [List.isPrefixOf_iff_prefix, List.cons_prefix_cons] at hpre
      exact hw (by simp [hpre.1])

/-- A leading whitespace character does not change the anchored match
attempt (the pattern begins with `\s*`). -/
theorem tryMatchModule_cons_space (c : Char) (l : List Char)
    (hc : isSpaceChar c = true) :
    tryMatchModule (c :: l) = tryMatchModule l := by
  rw [tryMatchModule, tryMatchModule, List.dropWhile_cons_of_pos hc]

/-- A leading whitespace character that is a newline does not change the
multiline search result. -/
theorem searchModule_cons_newline (x : List Char) :
    searchModule ('\n' :: x) = searchModule x := by
  cases x with
  | nil =>
    have h1 : tryMatchModule ['\n'] = none := by decide
    simp [searchModule, searchAux, h1]
  | cons a xs =>
    show searchAux true ('\n' :: a :: xs) = searchAux true (a :: xs)
    simp only [searchAux, tryMatchModule_cons_space '\n' _ (by decide)]
    norm_num
    cases tryMatchModule (a :: xs) <;> simp
/-- Prepending a line comment (`//` text up to a kept newline) leaves the
whole extraction pipeline's result unchanged. -/
theorem stripPipeline_prepend_line_comment (t rest : List Char) (h : '\n' ∉ t) :
    searchModule (removeWord "automatic".data (removeWord "static".data
      (removeBlockComments (removeLineComments ('/' :: '/' :: (t ++ '\n' :: rest)))))) =
    searchModule (removeWord "automatic".data (removeWord "static".data
      (removeBlockComments (removeLineComments rest)))) := by
  rw [removeLineComments_double_slash, removeLineCommentsAux_true_through t rest h]
  rw [show removeLineCommentsAux false rest = removeLineComments rest from rfl]
  rw [removeBlockComments_newline]
  simp only [removeWord]
  rw [removeWordAux_cons_nonword "static".data false '\n' _ (by decide) (by decide)]
  rw [removeWordAux_cons_nonword "automatic".data false '\n' _ (by decide) (by decide)]
  rw [searchModule_cons_newline]

/-- Prepending a well-formed block comment whose body contains neither
`//` nor `*/`, when the following text does not begin with `/`, leaves the
whole extraction pipeline's result unchanged. -/
theorem stripPipeline_prepend_block_comment (t rest : List Char)
    (h1 : hasOccur ['/', '/'] t = false) (h2 : hasOccur ['*', '/'] t = false)
    (h3 : rest.head? ≠ some '/') :
    searchModule (removeWord "automatic".data (removeWord "static".data
      (removeBlockComments (removeLineComments
        (('/' :: '*' :: t) ++ '*' :: '/' :: rest))))) =
    searchModule (removeWord "automatic".data (removeWord "static".data
      (removeBlockComments (removeLineComments rest)))) := by
  have hbody : hasOccur ['/', '/'] (t ++ ['*']) = false :=
    hasOccur_pair_snoc '/' '/' '*' t (by decide) h1
  have hs : hasOccur ['/', '/'] ('*' :: '/' :: rest.take 1) = false := by
    cases rest with
    | nil => decide
    | cons r rs =>
      have hr : ¬ (r = '/') := fun hh => h3 (by simp [hh])
      have hr' : ¬ ('/' = r) := fun hh => hr hh.symm
      simp [hasOccur, List.isPrefixOf, hr']
  have hmid : hasOccur ['/', '/'] (t ++ '*' :: '/' :: rest.take 1) = false :=
    hasOccur_pair_append '/' '/' t ('*' :: '/' :: rest.take 1) (by simpa using hbody) hs
  have hA : hasOccur ['/', '/'] ((('/' :: '*' :: t) ++ ['*', '/']) ++ rest.take 1) = false := by
    have hl : (('/' :: '*' :: t) ++ ['*', '/']) ++ rest.take 1 =
        '/' :: '*' :: (t ++ '*' :: '/' :: rest.take 1) := by simp
    rw [hl, hasOccur, hasOccur]
    simp [List.isPrefixOf, hmid]
  have hline := removeLineCommentsAux_append (('/' :: '*' :: t) ++ ['*', '/']) rest hA
  have hassoc : ('/' :: '*' :: t) ++ '*' :: '/' :: rest =
      (('/' :: '*' :: t) ++ ['*', '/']) ++ rest := by simp
  rw [hassoc]
  rw [show removeLineComments ((('/' :: '*' :: t) ++ ['*', '/']) ++ rest) =
      (('/' :: '*' :: t) ++ ['*', '/']) ++ removeLineComments rest from hline]
  rw [show (('/' :: '*' :: t) ++ ['*', '/']) ++ removeLineComments rest =
      ('/' :: '*' :: t) ++ '*' :: '/' :: removeLineComments rest by simp]
  rw [c4_amended_lazy_block_removal t (removeLineComments rest) h2]
/-- Counterexample to C5: `module widget_unit_test;` extracts its
identifier, but inserting the well-formed block comment `/* // */ ` before
the declaration — outside the matched text — makes extraction fail: line
comments are stripped first, so the `//` inside the block comment swallows
the closing `*/` and the rest of the line, leaving an unterminated `/*`.
The claim's universal comment-insertion invariance is therefore false. -/
theorem c5_counterexample :
    parseUnitTestName "module widget_unit_test;\n" = some "widget_unit_test" ∧
    parseUnitTestName "/* // */ module widget_unit_test;\n" = none := by
  refine ⟨by decide, by decide⟩

/-- C5 as amended: extraction is invariant under prepending a line comment
(its text free of newlines, terminated by its newline), and under
prepending a well-formed block comment whose body contains neither `//`
nor `*/` when the following text does not begin with `/`; and the claim's
own example holds — `// module fake_unit_test;` followed by
`module widget_unit_test;` extracts `widget_unit_test`, never
`fake_unit_test`.  (Block comments containing `//` are excluded: the
counterexample shows they can defeat extraction, because line comments are
stripped before block comments.) -/
theorem c5_amended_comment_insertion (t1 t2 rest : List Char)
    (hline : '\n' ∉ t1)
    (hb1 : hasOccur ['/', '/'] t2 = false) (hb2 : hasOccur ['*', '/'] t2 = false)
    (hb3 : rest.head? ≠ some '/') :
    parseUnitTestName ⟨'/' :: '/' :: (t1 ++ '\n' :: rest)⟩ = parseUnitTestName ⟨rest⟩ ∧
    parseUnitTestName ⟨('/' :: '*' :: t2) ++ '*' :: '/' :: rest⟩ = parseUnitTestName ⟨rest⟩ ∧
    parseUnitTestName "// module fake_unit_test;\nmodule widget_unit_test;\n" =
      some "widget_unit_test" :=
  ⟨congrArg (Option.map fun w => (⟨w⟩ : String))
      (stripPipeline_prepend_line_comment t1 rest hline),
   congrArg (Option.map fun w => (⟨w⟩ : String))
      (stripPipeline_prepend_block_comment t2 rest hb1 hb2 hb3),
   by decide⟩

/-- Witness for the amended C5: a line comment `// hi` and a block comment
`/* c */` prepended to `module widget_unit_test;` leave extraction
unchanged. -/
theorem c5_amended_witness :
    parseUnitTestName
        ⟨'/' :: '/' :: (" hi".data ++ '\n' :: "module widget_unit_test;\n".data)⟩ =
      parseUnitTestName "module widget_unit_test;\n" ∧
    parseUnitTestName
        ⟨('/' :: '*' :: " c ".data) ++ '*' :: '/' :: "module widget_unit_test;\n".data⟩ =
      parseUnitTestName "module widget_unit_test;\n" := by
  have h := c5_amended_comment_insertion " hi".data " c ".data
    "module widget_unit_test;\n".data (by decide) (by decide) (by decide) (by decide)
  exact ⟨h.1, h.2.1⟩

end SvUnit
